import Mathlib

/-!
A verification development for the real-time conversation core of the
STT-Proto backend (Flask + SQLAlchemy).  The Python routes and models in
`backend/app/routes/conversation.py`, `backend/app/routes/stt_websocket.py`,
`backend/app/models/conversation.py` and
`backend/app/models/conversation_participant.py` are shallowly embedded as
pure Lean functions over an explicit database state; the theorems below
settle the spec's claims about access control, participant management,
message atomicity, SSE streaming, and the audio relay session.
-/

namespace STTProto

/-! ## Data model

Embeds the SQLAlchemy models.  Timestamps are `Nat` ticks; primary keys are
`Nat`.  Message bodies are `List Char` so that Python's `str.split()` can be
modelled character by character. -/

/-- Embeds `app.models.user.User` (only the fields the conversation core
reads: id, username, is_active). -/
structure User where
  id : Nat
  username : String
  is_active : Bool
  deriving DecidableEq, Repr

/-- Embeds `app.models.conversation.Conversation`. -/
structure Conversation where
  id : Nat
  user_id : Nat
  configuration : String
  created_at : Nat
  updated_at : Nat
  is_active : Bool
  deriving DecidableEq, Repr

/-- Embeds `app.models.conversation_participant.ConversationParticipant`.
The table carries a `UniqueConstraint('conversation_id', 'user_id')`. -/
structure ConversationParticipant where
  id : Nat
  conversation_id : Nat
  user_id : Nat
  added_at : Nat
  added_by : Option Nat
  deriving DecidableEq, Repr

/-- Embeds `app.models.conversation.Message`. -/
structure Message where
  id : Nat
  conversation_id : Nat
  sender : String
  sender_type : String
  message : List Char
  has_audio : Bool
  created_at : Nat
  deriving DecidableEq, Repr

/-- The transactional store's visible state: the four tables the
conversation core touches. -/
structure DB where
  users : List User
  conversations : List Conversation
  participants : List ConversationParticipant
  messages : List Message
  deriving DecidableEq, Repr

/-- The `(conversation_id, user_id)` pairs of the participant table; the
schema's `unique_conversation_participant` constraint says this list has no
duplicate. -/
def pairsOf (db : DB) : List (Nat × Nat) :=
  db.participants.map (fun p => (p.conversation_id, p.user_id))

/-! ## Python string helpers

`str.split()` with no argument splits on runs of whitespace and drops empty
fields; `str.strip()` removes leading and trailing whitespace. -/

/-- The characters Python's no-argument `str.split()` treats as whitespace
(ASCII fragment; the bodies in this model are ASCII). -/
def isPySpace (c : Char) : Bool :=
  c = ' ' || c = '\t' || c = '\n' || c = '\r' || c = '\x0b' || c = '\x0c'

/-- Helper for `pySplit`: `acc` holds the current word, reversed. -/
def pySplitAux : List Char → List Char → List (List Char)
  | [], acc => if acc.isEmpty then [] else [acc.reverse]
  | c :: rest, acc =>
    if isPySpace c then
      if acc.isEmpty then pySplitAux rest []
      else acc.reverse :: pySplitAux rest []
    else pySplitAux rest (c :: acc)

/-- Python's `s.split()`: whitespace-delimited tokens, empty fields
dropped. -/
def pySplit (s : List Char) : List (List Char) :=
  pySplitAux s []

/-- Python's `s.strip()`: leading and trailing whitespace removed. -/
def pyStrip (s : List Char) : List Char :=
  ((s.dropWhile isPySpace).reverse.dropWhile isPySpace).reverse

/-! ## Access control -/

/-- Embeds `has_conversation_access` from
`backend/app/routes/conversation.py`: owner or participant of an existing
active conversation; fails closed with `(false, none)` otherwise. -/
def has_conversation_access (db : DB) (user_id conversation_id : Nat) :
    Bool × Option Conversation :=
  match db.conversations.find? (fun c => c.id == conversation_id) with
  | none => (false, none)
  | some conversation =>
    if !conversation.is_active then (false, none)
    else if conversation.user_id == user_id then (true, some conversation)
    else
      match db.participants.find?
          (fun p => p.conversation_id == conversation_id && p.user_id == user_id) with
      | some _ => (true, some conversation)
      | none => (false, none)

/-! ## Participant management

`add_participant` and `remove_participant` from
`backend/app/routes/conversation.py`.  Both gate on
`Conversation.query.filter_by(id=conversation_id, user_id=current_user.id)`
— note that this filter does not mention `is_active`.  Results carry the
HTTP status the route returns (`201`/`200` success, `400` validation,
`404` not found, `409` conflict). -/

/-- Embeds `add_participant`.  `req_user_id` is `data.get('user_id')`
(`none` when absent; Python's `if not user_id` also rejects `0`).
`new_pid`/`now` stand for the store-assigned primary key and `utcnow`. -/
def add_participant (db : DB) (cu_id conversation_id : Nat)
    (req_user_id : Option Nat) (new_pid now : Nat) : DB × Nat :=
  match db.conversations.find?
      (fun c => c.id == conversation_id && c.user_id == cu_id) with
  | none => (db, 404)
  | some _ =>
    match req_user_id with
    | none => (db, 400)
    | some uid =>
      if uid == 0 then (db, 400)
      else
        match db.users.find? (fun u => u.id == uid) with
        | none => (db, 404)
        | some u =>
          if !u.is_active then (db, 404)
          else
            match db.participants.find?
                (fun p => p.conversation_id == conversation_id && p.user_id == uid) with
            | some _ => (db, 409)
            | none =>
              ({ db with participants :=
                  db.participants ++
                    [⟨new_pid, conversation_id, uid, now, some cu_id⟩] }, 201)

/-- Embeds `remove_participant`.  The matched row is deleted by primary
key (`db.session.delete(participant)`). -/
def remove_participant (db : DB) (cu_id conversation_id user_id : Nat) :
    DB × Nat :=
  match db.conversations.find?
      (fun c => c.id == conversation_id && c.user_id == cu_id) with
  | none => (db, 404)
  | some _ =>
    match db.participants.find?
        (fun p => p.conversation_id == conversation_id && p.user_id == user_id) with
    | none => (db, 404)
    | some participant =>
      ({ db with participants :=
          db.participants.filter (fun p => p.id != participant.id) }, 200)

/-! ## Messages -/

/-- The JSON body of a message-posting request; `none` models an absent
key, resolved by `data.get(..., default)`. -/
structure MessageRequest where
  sender : Option String
  sender_type : Option String
  message : Option (List Char)
  has_audio : Option Bool
  deriving DecidableEq, Repr

/-- Embeds `send_message`.  The route adds the `Message` row and sets
`conversation.updated_at = datetime.utcnow()` before a single
`db.session.commit()`; `commit_ok = false` models that commit failing, in
which case the `except` branch rolls the session back and returns 500 with
the store unchanged. -/
def send_message (db : DB) (cu : User) (conversation_id : Nat)
    (req : MessageRequest) (now new_mid : Nat) (commit_ok : Bool) : DB × Nat :=
  match has_conversation_access db cu.id conversation_id with
  | (false, _) => (db, 404)
  | (true, none) => (db, 404)
  | (true, some conversation) =>
    match req.message with
    | none => (db, 400)
    | some text =>
      if text.isEmpty then (db, 400)
      else
        let sender := req.sender.getD cu.username
        let sender_type := req.sender_type.getD "user"
        let has_audio := req.has_audio.getD false
        let msg : Message :=
          ⟨new_mid, conversation_id, sender, sender_type, text, has_audio, now⟩
        if commit_ok then
          ({ db with
              messages := db.messages ++ [msg],
              conversations := db.conversations.map
                (fun c => if c.id == conversation.id then { c with updated_at := now } else c) },
            201)
        else (db, 500)

/-! ## SSE streaming delivery

`stream_message` / `stream_conversation_message` from
`backend/app/routes/conversation.py`.  Each generator `yield` is one SSE
frame; `SSEEvent.done` stands for the literal sentinel frame
`data: [DONE]\n\n`. -/

/-- One SSE frame of the streaming endpoint. -/
inductive SSEEvent where
  | start (message_id : Nat)
  | chunk (message_id : Nat) (text : List Char) (accumulated_text : List Char)
  | complete (message_id : Nat)
  | done
  deriving DecidableEq, Repr

/-- The per-word fragment list of `stream_conversation_message`: each word
re-joined with a single `' '` except the last
(`word + (" " if i < len(words) - 1 else "")`). -/
def chunkTexts : List (List Char) → List (List Char)
  | [] => []
  | [w] => [w]
  | w :: v :: rest => (w ++ [' ']) :: chunkTexts (v :: rest)

/-- The loop body of `stream_conversation_message`: one `chunk` event per
fragment, carrying the fragment and the accumulated text so far. -/
def chunkEvents (mid : Nat) : List (List Char) → List Char → List SSEEvent
  | [], _ => []
  | f :: rest, acc => .chunk mid f (acc ++ f) :: chunkEvents mid rest (acc ++ f)

/-- The full frame sequence `stream_conversation_message` yields for a
message body: `start`, the word chunks in order, `complete`, sentinel. -/
def streamEvents (mid : Nat) (body : List Char) : List SSEEvent :=
  .start mid :: (chunkEvents mid (chunkTexts (pySplit body)) [] ++ [.complete mid, .done])

/-- The `text` field of a `chunk` event (`none` on the other frames). -/
def chunkTextOf : SSEEvent → Option (List Char)
  | .chunk _ t _ => some t
  | _ => none

/-- The `text` fields of the `chunk` events of a frame sequence, in
emission order. -/
def chunkTextsOfEvents (evs : List SSEEvent) : List (List Char) :=
  evs.filterMap chunkTextOf

/-- The spec-side normal form the streamed fragments concatenate to: the
whitespace-delimited tokens re-joined with single spaces. -/
def joinWords : List (List Char) → List Char
  | [] => []
  | [w] => w
  | w :: v :: rest => w ++ ' ' :: joinWords (v :: rest)

/-- Result of the streaming route: an error status, or the post-persist
store together with the SSE frames emitted. -/
inductive StreamResult where
  | err (status : Nat)
  | stream (db : DB) (events : List SSEEvent)
  deriving DecidableEq, Repr

/-- Embeds the `stream_message` route: access check, `message` required
(`if not message_text` — the empty string fails, any other string passes),
then `stream_conversation_message` persists the message (bumping
`updated_at` in the same commit) and yields the frames. -/
def stream_message (db : DB) (cu : User) (conversation_id : Nat)
    (req : MessageRequest) (now new_mid : Nat) : StreamResult :=
  match has_conversation_access db cu.id conversation_id with
  | (false, _) => .err 404
  | (true, none) => .err 404
  | (true, some conversation) =>
    match req.message with
    | none => .err 400
    | some text =>
      if text.isEmpty then .err 400
      else
        let sender := req.sender.getD cu.username
        let sender_type := req.sender_type.getD "user"
        let has_audio := req.has_audio.getD false
        let msg : Message :=
          ⟨new_mid, conversation_id, sender, sender_type, text, has_audio, now⟩
        .stream
          { db with
              messages := db.messages ++ [msg],
              conversations := db.conversations.map
                (fun c => if c.id == conversation.id then { c with updated_at := now } else c) }
          (streamEvents new_mid text)

/-! ## Audio relay session

`handle_audio` from `backend/app/routes/stt_websocket.py`.  The handler
never calls `disconnect()`: whatever happens to one chunk, the connection —
and hence the session state — is untouched. -/

/-- Session states of §4.4. -/
inductive SessionState where
  | connecting
  | ready
  | streaming
  | closed
  deriving DecidableEq, Repr

/-- A server→client socket event of the relay session. -/
inductive WsEvent where
  | transcript (text : String) (is_final : Bool)
  | wsError (message : String)
  deriving DecidableEq, Repr

/-- What one `audio_data` message leads to, as seen by `handle_audio`:
the payload may lack the `audio` key, decoding or the engine call may
raise (base64 error, `requests` timeout), or the engine answers with an
HTTP status and an extracted transcript. -/
inductive ChunkOutcome where
  | noAudio
  | decodeFailure (e : String)
  | engineTimeout (e : String)
  | httpResponse (status : Nat) (transcript : String)
  deriving DecidableEq, Repr

/-- Embeds `handle_audio`: missing audio returns silently; a raised
exception is caught and answered with one `error` event; a 200 response
with a non-blank transcript yields one non-final `transcript` event; a
blank transcript or a non-200 status yields nothing (the latter is only
logged server-side).  No branch touches the connection, so the session
state is returned unchanged. -/
def handle_audio (s : SessionState) (c : ChunkOutcome) :
    SessionState × List WsEvent :=
  match c with
  | .noAudio => (s, [])
  | .decodeFailure e => (s, [.wsError ("Audio processing error: " ++ e)])
  | .engineTimeout e => (s, [.wsError ("Audio processing error: " ++ e)])
  | .httpResponse status transcript =>
    if status == 200 then
      if (pyStrip transcript.data).isEmpty then (s, [])
      else (s, [.transcript transcript false])
    else (s, [])

/-- Runs a relay session over a list of chunk outcomes, threading the
session state and collecting each chunk's emitted events. -/
def run_session : SessionState → List ChunkOutcome → SessionState × List (List WsEvent)
  | s, [] => (s, [])
  | s, c :: rest =>
    let step := handle_audio s c
    let tail := run_session step.1 rest
    (tail.1, step.2 :: tail.2)

/-! ## Concrete fixtures

Small stores used by witnesses and counterexamples. -/

/-- Three active users; user 1 owns active conversation 10; user 2 is its
participant. -/
def db0 : DB :=
  { users := [⟨1, "alice", true⟩, ⟨2, "bob", true⟩, ⟨3, "carol", true⟩],
    conversations := [⟨10, 1, "1:1", 0, 0, true⟩],
    participants := [⟨100, 10, 2, 0, some 1⟩],
    messages := [] }

/-- User 1 owns conversation 20, which is logically deleted
(`is_active = false`); user 3 is stored as its participant. -/
def dbInactive : DB :=
  { users := [⟨1, "alice", true⟩, ⟨2, "bob", true⟩, ⟨3, "carol", true⟩],
    conversations := [⟨20, 1, "1:1", 0, 0, false⟩],
    participants := [⟨200, 20, 3, 0, some 1⟩],
    messages := [] }

/-- User 1 owns active conversation 10 and is also stored as its
participant (the state `add_participant` reaches when the owner adds
themselves). -/
def dbOwnerRow : DB :=
  { users := [⟨1, "alice", true⟩],
    conversations := [⟨10, 1, "1:1", 0, 0, true⟩],
    participants := [⟨101, 10, 1, 3, some 1⟩],
    messages := [] }

/-! ## Helper lemmas -/

/-- A successful `find?` on the conversation table returns a row of the
table whose id matches. -/
lemma find?_conversation_eq (db : DB) (cid : Nat) (c : Conversation)
    (h : db.conversations.find? (fun c => c.id == cid) = some c) :
    c ∈ db.conversations ∧ c.id = cid := by
  refine ⟨List.mem_of_find?_eq_some h, ?_⟩
  have := List.find?_some h
  simpa using this

/-- With no duplicate conversation ids, a row of the table whose id the
`find?` predicate matches is the row `find?` returns. -/
lemma find?_conversation_unique (db : DB) (cid : Nat) (c c' : Conversation)
    (hids : (db.conversations.map Conversation.id).Nodup)
    (h : db.conversations.find? (fun c => c.id == cid) = some c)
    (hc' : c' ∈ db.conversations) (hcid' : c'.id = cid) : c' = c := by
  obtain ⟨hmem, hcid⟩ := find?_conversation_eq db cid c h
  exact List.inj_on_of_nodup_map hids hc' hmem (by rw [hcid', hcid])

/-- C1 (iff direction bookkeeping): `has_conversation_access` answers
`true` exactly on owner-or-participant of an existing active conversation. -/
theorem access_true_iff (db : DB) (uid cid : Nat)
    (hids : (db.conversations.map Conversation.id).Nodup) :
    (has_conversation_access db uid cid).1 = true ↔
      ∃ c ∈ db.conversations, c.id = cid ∧ c.is_active = true ∧
        (c.user_id = uid ∨
          ∃ p ∈ db.participants, p.conversation_id = cid ∧ p.user_id = uid) := by
  unfold has_conversation_access
  cases hfind : db.conversations.find? (fun c => c.id == cid) with
  | none =>
    simp only
    constructor
    · intro h; exact absurd h (by simp)
    · rintro ⟨c, hc, hcid, -⟩
      have := List.find?_eq_none.mp hfind c hc
      simp [hcid] at this
  | some c =>
    obtain ⟨hcmem, hcid⟩ := find?_conversation_eq db cid c hfind
    by_cases hact : c.is_active
    · by_cases hown : c.user_id = uid
      · simp only [hact, hown, Bool.not_true, Bool.false_eq_true, if_false,
          beq_self_eq_true, if_true, true_iff]
        exact ⟨c, hcmem, hcid, hact, Or.inl hown⟩
      · cases hp : db.participants.find?
            (fun p => p.conversation_id == cid && p.user_id == uid) with
        | none =>
          simp only [hact, Bool.not_true, Bool.false_eq_true, if_false,
            beq_iff_eq, hown, false_iff]
          rintro ⟨c', hc', hcid', hact', how⟩
          have hceq : c' = c := find?_conversation_unique db cid c c' hids hfind hc' hcid'
          subst hceq
          rcases how with how | ⟨p, hpmem, hp1, hp2⟩
          · exact hown how
          · have := List.find?_eq_none.mp hp p hpmem
            simp [hp1, hp2] at this
        | some p =>
          obtain hpmem := List.mem_of_find?_eq_some hp
          have hppred := List.find?_some hp
          simp only [Bool.and_eq_true, beq_iff_eq] at hppred
          simp only [hact, Bool.not_true, Bool.false_eq_true, if_false,
            beq_iff_eq, hown, true_iff]
          exact ⟨c, hcmem, hcid, hact, Or.inr ⟨p, hpmem, hppred.1, hppred.2⟩⟩
    · simp only [Bool.not_eq_true] at hact
      simp only [hact, Bool.not_false, if_true, Bool.false_eq_true, false_iff]
      rintro ⟨c', hc', hcid', hact', -⟩
      have hceq : c' = c := find?_conversation_unique db cid c c' hids hfind hc' hcid'
      subst hceq
      rw [hact] at hact'
      exact Bool.false_ne_true hact'

/-- When `has_conversation_access` denies, it returns no conversation. -/
lemma access_false_none (db : DB) (uid cid : Nat)
    (h : (has_conversation_access db uid cid).1 = false) :
    (has_conversation_access db uid cid).2 = none := by
  unfold has_conversation_access at *
  cases hfind : db.conversations.find? (fun c => c.id == cid) with
  | none => simp
  | some c =>
    rw [hfind] at h
    by_cases hact : c.is_active
    · by_cases hown : c.user_id = uid
      · simp [hact, hown] at h
      · cases hp : db.participants.find?
            (fun p => p.conversation_id == cid && p.user_id == uid) with
        | none => simp [hact, hown, hp]
        | some p =>
          rw [hp] at h
          simp [hact, hown] at h
    · simp only [Bool.not_eq_true] at hact
      simp [hact]

/-- The fragments of `stream_conversation_message` concatenate to the
words re-joined with single spaces, not to the original body. -/
lemma chunkTexts_flatten : ∀ ws : List (List Char),
    (chunkTexts ws).flatten = joinWords ws
  | [] => rfl
  | [w] => by simp [chunkTexts, joinWords]
  | w :: v :: rest => by
    have ih := chunkTexts_flatten (v :: rest)
    simp [chunkTexts, joinWords, ih]

/-- The `chunk` events the streaming loop emits carry exactly the fragment
list, in order. -/
lemma chunkEvents_filterMap (mid : Nat) : ∀ (fs : List (List Char)) (acc : List Char),
    (chunkEvents mid fs acc).filterMap chunkTextOf = fs
  | [], _ => rfl
  | f :: rest, acc => by
    simp [chunkEvents, List.filterMap_cons, chunkTextOf,
      chunkEvents_filterMap mid rest (acc ++ f)]

/-- The chunk texts of a full stream are the word fragments of the body. -/
lemma streamEvents_chunkTexts (mid : Nat) (body : List Char) :
    chunkTextsOfEvents (streamEvents mid body) = chunkTexts (pySplit body) := by
  simp [chunkTextsOfEvents, streamEvents, List.filterMap_cons, List.filterMap_append,
    chunkTextOf, chunkEvents_filterMap]

/-! ## Claim theorems -/

/-- C1: `has_conversation_access P C` returns `allowed = true` iff the
conversation `C` exists, is active, and `P` is its owner or a participant
row `(C, P)` exists; in every other case it returns `allowed = false`
together with no conversation. -/
theorem C1_check_access_correct (db : DB) (uid cid : Nat)
    (hids : (db.conversations.map Conversation.id).Nodup) :
    ((has_conversation_access db uid cid).1 = true ↔
      ∃ c ∈ db.conversations, c.id = cid ∧ c.is_active = true ∧
        (c.user_id = uid ∨
          ∃ p ∈ db.participants, p.conversation_id = cid ∧ p.user_id = uid))
    ∧ ((has_conversation_access db uid cid).1 = false →
        (has_conversation_access db uid cid).2 = none) :=
  ⟨access_true_iff db uid cid hids, access_false_none db uid cid⟩

/-- C1 witness: on the concrete store `db0`, participant `2` is granted
access to conversation `10` via the correctness theorem. -/
theorem C1_check_access_correct_witness :
    (db0.conversations.map Conversation.id).Nodup ∧
    (has_conversation_access db0 2 10).1 = true :=
  ⟨by decide,
    (C1_check_access_correct db0 2 10 (by decide)).1.mpr
      ⟨⟨10, 1, "1:1", 0, 0, true⟩, by decide, rfl, rfl,
        Or.inr ⟨⟨100, 10, 2, 0, some 1⟩, by decide, rfl, rfl⟩⟩⟩

/-- C2 counterexample: for the body `"a  b"` (two spaces), the
concatenation of the streamed `chunk.text` fragments is `"a b"`, not the
original body — the split drops the separators and the loop re-appends a
single space, so the round-trip is not byte-for-byte. -/
theorem C2_roundtrip_counterexample :
    (chunkTextsOfEvents (streamEvents 1 ('a' :: ' ' :: ' ' :: ['b']))).flatten ≠
      'a' :: ' ' :: ' ' :: ['b'] := by decide

/-- C2 (amended): concatenating the `chunk.text` fragments of a stream, in
emission order, yields the body's whitespace-delimited tokens re-joined
with single spaces; it reproduces the original body exactly when the body
is already in that normal form. -/
theorem C2_roundtrip_amended (mid : Nat) (body : List Char) :
    (chunkTextsOfEvents (streamEvents mid body)).flatten = joinWords (pySplit body) := by
  rw [streamEvents_chunkTexts, chunkTexts_flatten]

/-- C3 counterexample: on `db0`, conversation `10` is owned by user `1`,
yet `add_participant` called by the owner with `user_id = 1` succeeds
(status 201) and stores the row `(10, 1)` — the owner is stored as a
participant of their own conversation. -/
theorem C3_owner_row_counterexample :
    (add_participant db0 1 10 (some 1) 101 5).2 = 201 ∧
    (⟨101, 10, 1, 5, some 1⟩ : ConversationParticipant) ∈
      (add_participant db0 1 10 (some 1) 101 5).1.participants ∧
    (⟨10, 1, "1:1", 0, 0, true⟩ : Conversation) ∈ db0.conversations := by
  decide

/-- C3 (amended): the participant table's `(conversation, principal)` pair
stays unique under `add_participant` (a duplicate add is answered with 409
and changes nothing) and under `remove_participant`; but nothing excludes
the owner, who can be stored as a participant row of their own
conversation. -/
theorem C3_pair_unique_preserved (db : DB) (cu cid : Nat) (req : Option Nat)
    (pid now uid : Nat) (h : (pairsOf db).Nodup) :
    (pairsOf (add_participant db cu cid req pid now).1).Nodup ∧
    (pairsOf (remove_participant db cu cid uid).1).Nodup := by
  constructor
  · unfold add_participant
    cases hgate : db.conversations.find? (fun c => c.id == cid && c.user_id == cu) with
    | none => exact h
    | some c =>
      cases req with
      | none => exact h
      | some uid2 =>
        dsimp only
        by_cases h0 : (uid2 == 0) = true
        · rw [if_pos h0]; exact h
        · rw [if_neg h0]
          cases huser : db.users.find? (fun u => u.id == uid2) with
          | none => exact h
          | some u =>
            dsimp only
            by_cases hua : (!u.is_active) = true
            · rw [if_pos hua]; exact h
            · rw [if_neg hua]
              cases hnone : db.participants.find?
                  (fun p => p.conversation_id == cid && p.user_id == uid2) with
              | some p => exact h
              | none =>
                simp only [pairsOf, List.map_append, List.map_cons, List.map_nil]
                rw [List.nodup_append]
                refine ⟨h, List.nodup_singleton _, ?_⟩
                intro x hx hmem
                simp only [List.mem_singleton] at hmem
                subst hmem
                obtain ⟨p, hp, hpx⟩ := List.mem_map.mp hx
                have := List.find?_eq_none.mp hnone p hp
                simp only [Bool.and_eq_true, beq_iff_eq, not_and] at this
                have h1 : p.conversation_id = cid := congrArg Prod.fst hpx
                have h2 : p.user_id = uid2 := congrArg Prod.snd hpx
                exact this h1 h2
  · unfold remove_participant
    split
    · exact h
    · split
      · exact h
      · exact List.Nodup.sublist
          (List.Sublist.map _ (List.filter_sublist db.participants)) h

/-- C3 witness: the uniqueness preservation applied on `db0` to an add of
user `3` and a removal of user `2`. -/
theorem C3_pair_unique_preserved_witness :
    (pairsOf db0).Nodup ∧
    ((pairsOf (add_participant db0 1 10 (some 3) 102 7).1).Nodup ∧
      (pairsOf (remove_participant db0 1 10 2).1).Nodup) :=
  ⟨by decide, C3_pair_unique_preserved db0 1 10 (some 3) 102 7 2 (by decide)⟩

/-- C4 counterexample: on `dbInactive`, conversation `20` is owned by
user `1` and has `is_active = false`, yet the owner's `add_participant`
returns 201 and the owner's `remove_participant` returns 200 — neither
fails with NotFound, so the owner gate does not require the conversation
to be active. -/
theorem C4_inactive_gate_counterexample :
    (⟨20, 1, "1:1", 0, 0, false⟩ : Conversation) ∈ dbInactive.conversations ∧
    (add_participant dbInactive 1 20 (some 2) 201 5).2 = 201 ∧
    (remove_participant dbInactive 1 20 3).2 = 200 := by decide

/-- C4 (amended): `add_participant` and `remove_participant` gate on
ownership only — the conversation must exist with `user_id` equal to the
caller, but `is_active` is not consulted; with the remaining
preconditions satisfied both operations succeed even on an inactive
conversation. -/
theorem C4_owner_gate_ignores_active (db : DB) (cu cid uid uid2 pid now : Nat)
    (c : Conversation) (u : User) (p : ConversationParticipant)
    (hgate : db.conversations.find? (fun c => c.id == cid && c.user_id == cu) = some c)
    (huid : uid ≠ 0)
    (huser : db.users.find? (fun x => x.id == uid) = some u)
    (hact : u.is_active = true)
    (hnew : db.participants.find?
      (fun q => q.conversation_id == cid && q.user_id == uid) = none)
    (hrow : db.participants.find?
      (fun q => q.conversation_id == cid && q.user_id == uid2) = some p) :
    (add_participant db cu cid (some uid) pid now).2 = 201 ∧
    (remove_participant db cu cid uid2).2 = 200 := by
  constructor
  · unfold add_participant
    rw [hgate]
    dsimp only
    rw [if_neg (by simp [huid]), huser]
    dsimp only
    rw [if_neg (by simp [hact]), hnew]
  · unfold remove_participant
    rw [hgate]
    dsimp only
    rw [hrow]

/-- C4 witness: the amended gate characterization applied to the inactive
conversation `20` of `dbInactive`. -/
theorem C4_owner_gate_ignores_active_witness :
    (add_participant dbInactive 1 20 (some 2) 201 5).2 = 201 ∧
    (remove_participant dbInactive 1 20 3).2 = 200 :=
  C4_owner_gate_ignores_active dbInactive 1 20 2 3 201 5
    ⟨20, 1, "1:1", 0, 0, false⟩ ⟨2, "bob", true⟩ ⟨200, 20, 3, 0, some 1⟩
    (by decide) (by decide) (by decide) (by decide) (by decide) (by decide)

/-- C5 counterexample: on `dbOwnerRow` the owner (user `1`) is stored as a
participant of their own conversation `10`; removing that participant row
succeeds (status 200), yet `CheckAccess(1, 10)` still returns
`allowed = true` afterwards, through the owner branch. -/
theorem C5_remove_counterexample :
    (remove_participant dbOwnerRow 1 10 1).2 = 200 ∧
    (has_conversation_access (remove_participant dbOwnerRow 1 10 1).1 1 10).1 = true := by
  decide

/-- C5 (amended): for a principal other than the conversation's owner,
a committed `remove_participant` immediately revokes access — any
subsequent `CheckAccess` for that pair returns `allowed = false` (given
the store's primary-key and unique-pair invariants). -/
theorem C5_remove_revokes_access (db : DB) (cu cid p : Nat)
    (hids : (db.conversations.map Conversation.id).Nodup)
    (hpairs : (pairsOf db).Nodup)
    (hok : (remove_participant db cu cid p).2 = 200)
    (hne : p ≠ cu) :
    (has_conversation_access (remove_participant db cu cid p).1 p cid).1 = false := by
  simp only [pairsOf] at hpairs
  unfold remove_participant at hok
  cases hgate : db.conversations.find? (fun c => c.id == cid && c.user_id == cu) with
  | none => rw [hgate] at hok; simp at hok
  | some c =>
    rw [hgate] at hok
    cases hrow : db.participants.find?
        (fun q => q.conversation_id == cid && q.user_id == p) with
    | none => rw [hrow] at hok; simp at hok
    | some part =>
      have hcmem := List.mem_of_find?_eq_some hgate
      have hcpred := List.find?_some hgate
      simp only [Bool.and_eq_true, beq_iff_eq] at hcpred
      have hpmem := List.mem_of_find?_eq_some hrow
      have hppred := List.find?_some hrow
      simp only [Bool.and_eq_true, beq_iff_eq] at hppred
      unfold remove_participant
      rw [hgate, hrow]
      unfold has_conversation_access
      dsimp only
      cases hfind : db.conversations.find? (fun x => x.id == cid) with
      | none => rfl
      | some c0 =>
        have hc0 := find?_conversation_eq db cid c0 hfind
        have hceq : c0 = c :=
          List.inj_on_of_nodup_map hids hc0.1 hcmem (by rw [hc0.2, hcpred.1])
        subst hceq
        dsimp only
        by_cases hact : c0.is_active = true
        · rw [if_neg (by simp [hact])]
          rw [if_neg (by
            simp only [hcpred.2, beq_iff_eq]
            exact fun hh => hne hh.symm)]
          have hnone : (db.participants.filter (fun q => q.id != part.id)).find?
              (fun q => q.conversation_id == cid && q.user_id == p) = none := by
            apply List.find?_eq_none.mpr
            intro q hq hpred
            rw [List.mem_filter] at hq
            simp only [Bool.and_eq_true, beq_iff_eq] at hpred
            have hqpart : q = part :=
              List.inj_on_of_nodup_map hpairs hq.1 hpmem
                (by rw [hpred.1, hpred.2, hppred.1, hppred.2])
            have hid := hq.2
            rw [hqpart] at hid
            simp at hid
          rw [hnone]
        · rw [if_pos (by simp [Bool.not_eq_true] at hact; simp [hact])]

/-- C5 witness: removing participant `2` from conversation `10` of `db0`
revokes their access. -/
theorem C5_remove_revokes_access_witness :
    (remove_participant db0 1 10 2).2 = 200 ∧
    (has_conversation_access (remove_participant db0 1 10 2).1 2 10).1 = false :=
  ⟨by decide,
    C5_remove_revokes_access db0 1 10 2 (by decide) (by decide) (by decide) (by decide)⟩

/-- The conversation `has_conversation_access` hands back is a row of the
store with the requested id. -/
lemma access_snd_id (db : DB) (uid cid : Nat) (conv : Conversation)
    (h : (has_conversation_access db uid cid).2 = some conv) :
    conv ∈ db.conversations ∧ conv.id = cid := by
  unfold has_conversation_access at h
  cases hfind : db.conversations.find? (fun c => c.id == cid) with
  | none => rw [hfind] at h; simp at h
  | some c =>
    rw [hfind] at h
    have hc := find?_conversation_eq db cid c hfind
    by_cases hact : c.is_active
    · by_cases hown : c.user_id = uid
      · simp only [hact, hown] at h
        simp at h
        exact h ▸ hc
      · cases hp : db.participants.find?
            (fun p => p.conversation_id == cid && p.user_id == uid) with
        | none =>
          rw [hp] at h
          simp [hact, hown] at h
        | some p =>
          rw [hp] at h
          simp only [hact, hown] at h
          simp at h
          exact h ▸ hc
    · simp only [Bool.not_eq_true] at hact
      simp [hact] at h

/-- `send_message` either leaves the store untouched or commits, in one
step, exactly the new message row together with the `updated_at` bump. -/
lemma send_message_shape (db : DB) (cu : User) (cid : Nat) (req : MessageRequest)
    (now mid : Nat) (ok : Bool) :
    ((send_message db cu cid req now mid ok).1 = db ∧
      (send_message db cu cid req now mid ok).2 ≠ 201) ∨
    (ok = true ∧ (send_message db cu cid req now mid ok).2 = 201 ∧
      ∃ conv text, (has_conversation_access db cu.id cid).2 = some conv ∧
        req.message = some text ∧
        (send_message db cu cid req now mid ok).1 =
          { db with
              messages := db.messages ++
                [⟨mid, cid, req.sender.getD cu.username, req.sender_type.getD "user",
                  text, req.has_audio.getD false, now⟩],
              conversations := db.conversations.map
                (fun c => if c.id == conv.id then { c with updated_at := now } else c) }) := by
  unfold send_message
  cases hacc : has_conversation_access db cu.id cid with
  | mk fst snd =>
    cases fst
    · exact Or.inl ⟨rfl, by dsimp only; decide⟩
    · cases snd with
      | none => exact Or.inl ⟨rfl, by dsimp only; decide⟩
      | some conv =>
        cases hmsg : req.message with
        | none => exact Or.inl ⟨rfl, by dsimp only; decide⟩
        | some text =>
          dsimp only
          by_cases hemp : text.isEmpty = true
          · rw [if_pos hemp]; exact Or.inl ⟨rfl, by simp⟩
          · rw [if_neg hemp]
            cases ok
            · exact Or.inl ⟨rfl, by simp⟩
            · right
              exact ⟨rfl, rfl, conv, text, rfl, rfl, rfl⟩

/-- C6: atomicity of `AddMessage` — `send_message` either changes nothing
(in particular, when the commit fails the conversation's `updated_at` is
unchanged), or returns 201 having both inserted the message and bumped
`updated_at` of the target conversation to the insertion time; no mixed
state is reachable. -/
theorem C6_send_message_atomic (db : DB) (cu : User) (cid : Nat)
    (req : MessageRequest) (now mid : Nat) (ok : Bool) :
    (send_message db cu cid req now mid false).1 = db ∧
    ((send_message db cu cid req now mid ok).1 = db ∨
      ((send_message db cu cid req now mid ok).2 = 201 ∧
        (∃ m ∈ (send_message db cu cid req now mid ok).1.messages,
          m.id = mid ∧ m.conversation_id = cid ∧ m.created_at = now) ∧
        ∀ c ∈ (send_message db cu cid req now mid ok).1.conversations,
          c.id = cid → c.updated_at = now)) := by
  constructor
  · rcases send_message_shape db cu cid req now mid false with ⟨h, -⟩ | ⟨hok, -⟩
    · exact h
    · exact absurd hok (by simp)
  · rcases send_message_shape db cu cid req now mid ok with ⟨h, -⟩ |
      ⟨-, hs, conv, text, hconv, -, hdb⟩
    · exact Or.inl h
    · right
      refine ⟨hs, ?_, ?_⟩
      · rw [hdb]
        exact ⟨⟨mid, cid, req.sender.getD cu.username, req.sender_type.getD "user",
          text, req.has_audio.getD false, now⟩, by simp, rfl, rfl, rfl⟩
      · rw [hdb]
        intro c hc hcid
        obtain ⟨c0, hc0, hceq⟩ := List.mem_map.mp hc
        have hconvid : conv.id = cid := (access_snd_id db cu.id cid conv hconv).2
        by_cases hcc : (c0.id == conv.id) = true
        · rw [if_pos hcc] at hceq
          rw [← hceq]
        · rw [if_neg hcc] at hceq
          subst hceq
          exact absurd (show c0.id = conv.id by rw [hcid, hconvid]) (by simpa using hcc)

/-- C6 witness: on `db0`, a failed commit leaves the store untouched, and
a successful send commits message and timestamp together. -/
theorem C6_send_message_atomic_witness :
    (send_message db0 ⟨1, "alice", true⟩ 10 ⟨none, none, some ['h', 'i'], none⟩ 9 55 false).1
      = db0 :=
  (C6_send_message_atomic db0 ⟨1, "alice", true⟩ 10
    ⟨none, none, some ['h', 'i'], none⟩ 9 55 false).1

/-- `handle_audio` never touches the connection: the session state comes
back unchanged for every chunk outcome. -/
lemma handle_audio_state (s : SessionState) (c : ChunkOutcome) :
    (handle_audio s c).1 = s := by
  cases c with
  | noAudio => rfl
  | decodeFailure e => rfl
  | engineTimeout e => rfl
  | httpResponse st t =>
    simp only [handle_audio]
    split
    · split <;> rfl
    · rfl

/-- Running a relay session leaves the state fixed and treats every chunk
independently. -/
lemma run_session_spec (s : SessionState) (chunks : List ChunkOutcome) :
    (run_session s chunks).1 = s ∧
    (run_session s chunks).2 = chunks.map (fun c => (handle_audio s c).2) := by
  induction chunks with
  | nil => exact ⟨rfl, rfl⟩
  | cons c rest ih =>
    simp only [run_session, handle_audio_state, List.map_cons]
    exact ⟨ih.1, by rw [ih.2]⟩

/-- C7 counterexample: a chunk answered by the engine with a non-success
status (here 500) produces no event at all — in particular no error event
is sent to the client (the failure is only logged server-side), refuting
"every per-chunk error results in a non-fatal error event". -/
theorem C7_silent_status_counterexample :
    (handle_audio SessionState.streaming (ChunkOutcome.httpResponse 500 "hello")).2 = [] ∧
    (handle_audio SessionState.streaming (ChunkOutcome.httpResponse 500 "hello")).1 =
      SessionState.streaming := by decide

/-- C7 (amended): a failing chunk never closes an audio relay session —
the session stays `Streaming` and every subsequent chunk is processed
independently; a raised per-chunk failure (engine timeout, malformed
base64 payload) is answered with exactly one non-fatal error event, while
an engine non-success status or a missing audio payload is dropped
silently with no client event. -/
theorem C7_relay_nonfatal (chunks : List ChunkOutcome) (e : String)
    (status : Nat) (t : String) :
    (run_session SessionState.streaming chunks).1 = SessionState.streaming ∧
    (run_session SessionState.streaming chunks).2 =
      chunks.map (fun c => (handle_audio SessionState.streaming c).2) ∧
    (handle_audio SessionState.streaming (ChunkOutcome.engineTimeout e)).2 =
      [WsEvent.wsError ("Audio processing error: " ++ e)] ∧
    (handle_audio SessionState.streaming (ChunkOutcome.decodeFailure e)).2 =
      [WsEvent.wsError ("Audio processing error: " ++ e)] ∧
    (handle_audio SessionState.streaming ChunkOutcome.noAudio).2 = [] ∧
    (status ≠ 200 →
      (handle_audio SessionState.streaming (ChunkOutcome.httpResponse status t)).2 = []) := by
  obtain ⟨h1, h2⟩ := run_session_spec SessionState.streaming chunks
  refine ⟨h1, h2, rfl, rfl, rfl, ?_⟩
  intro hst
  simp only [handle_audio]
  rw [if_neg (by simpa using hst)]

/-- C7 witness: the spec's three-chunk scenario — the second chunk times
out upstream; the session stays `Streaming`, chunk 2 yields one error
event, chunks 1 and 3 yield transcript events. -/
theorem C7_relay_nonfatal_witness :
    (run_session SessionState.streaming
      [ChunkOutcome.httpResponse 200 "one", ChunkOutcome.engineTimeout "timed out",
        ChunkOutcome.httpResponse 200 "three"]).1 = SessionState.streaming ∧
    (run_session SessionState.streaming
      [ChunkOutcome.httpResponse 200 "one", ChunkOutcome.engineTimeout "timed out",
        ChunkOutcome.httpResponse 200 "three"]).2 =
      [[WsEvent.transcript "one" false],
        [WsEvent.wsError ("Audio processing error: " ++ "timed out")],
        [WsEvent.transcript "three" false]] ∧
    (handle_audio SessionState.streaming (ChunkOutcome.httpResponse 500 "x")).2 = [] := by
  obtain ⟨h1, h2, h3, -, -, h6⟩ :=
    C7_relay_nonfatal
      [ChunkOutcome.httpResponse 200 "one", ChunkOutcome.engineTimeout "timed out",
        ChunkOutcome.httpResponse 200 "three"] "timed out" 500 "x"
  refine ⟨h1, ?_, h6 (by decide)⟩
  rw [h2]
  decide

/-- Every event the chunk loop emits is a `chunk` event tagged with the
message id. -/
lemma chunkEvents_mem_chunk (mid : Nat) : ∀ (fs : List (List Char)) (acc : List Char),
    ∀ e ∈ chunkEvents mid fs acc, ∃ t a, e = SSEEvent.chunk mid t a
  | [], _, e, he => absurd he (List.not_mem_nil e)
  | f :: rest, acc, e, he => by
    simp only [chunkEvents, List.mem_cons] at he
    rcases he with rfl | he
    · exact ⟨f, acc ++ f, rfl⟩
    · exact chunkEvents_mem_chunk mid rest (acc ++ f) e he

/-- C8: the frame sequence of one streamed message is exactly one `start`
first, then the `chunk` events carrying the body's fragments in body
order, then one `complete`, and the terminal sentinel (the literal
`data: [DONE]` frame) last. -/
theorem C8_stream_event_order (mid : Nat) (body : List Char) :
    ∃ cs : List SSEEvent,
      streamEvents mid body =
        SSEEvent.start mid :: (cs ++ [SSEEvent.complete mid, SSEEvent.done]) ∧
      (∀ e ∈ cs, ∃ t a, e = SSEEvent.chunk mid t a) ∧
      cs.filterMap chunkTextOf = chunkTexts (pySplit body) ∧
      (streamEvents mid body).getLast? = some SSEEvent.done := by
  refine ⟨chunkEvents mid (chunkTexts (pySplit body)) [], rfl,
    chunkEvents_mem_chunk mid (chunkTexts (pySplit body)) [],
    chunkEvents_filterMap mid (chunkTexts (pySplit body)) [], ?_⟩
  show ((SSEEvent.start mid :: chunkEvents mid (chunkTexts (pySplit body)) []) ++
      SSEEvent.complete mid :: [SSEEvent.done]).getLast? = some SSEEvent.done
  rw [List.getLast?_append_cons]
  rfl

/-- A body consisting only of whitespace splits into no words. -/
lemma pySplitAux_all_space : ∀ (s : List Char),
    (∀ c ∈ s, isPySpace c = true) → pySplitAux s [] = []
  | [], _ => rfl
  | c :: rest, h => by
    have hc := h c (List.mem_cons_self c rest)
    simp only [pySplitAux, hc, if_true, List.isEmpty_nil]
    exact pySplitAux_all_space rest (fun x hx => h x (List.mem_cons_of_mem c hx))

/-- A body consisting only of whitespace yields no whitespace-delimited
tokens. -/
lemma pySplit_all_space (s : List Char) (h : ∀ c ∈ s, isPySpace c = true) :
    pySplit s = [] :=
  pySplitAux_all_space s h

/-- C9: a non-empty all-whitespace message body passes the `if not
message_text` validation, is persisted (with the `updated_at` bump), and
the stream consists of a `start` event, zero `chunk` events, a `complete`
event and the sentinel. -/
theorem C9_whitespace_only_body (db : DB) (cu : User) (cid : Nat)
    (req : MessageRequest) (now mid : Nat) (t : List Char) (conv : Conversation)
    (hacc : has_conversation_access db cu.id cid = (true, some conv))
    (hmsg : req.message = some t)
    (hne : t ≠ [])
    (hws : ∀ c ∈ t, isPySpace c = true) :
    stream_message db cu cid req now mid =
      StreamResult.stream
        { db with
            messages := db.messages ++
              [⟨mid, cid, req.sender.getD cu.username, req.sender_type.getD "user", t,
                req.has_audio.getD false, now⟩],
            conversations := db.conversations.map
              (fun c => if c.id == conv.id then { c with updated_at := now } else c) }
        [SSEEvent.start mid, SSEEvent.complete mid, SSEEvent.done] := by
  unfold stream_message
  rw [hacc]
  dsimp only
  rw [hmsg]
  dsimp only
  rw [if_neg (by simpa using hne)]
  have hsplit : pySplit t = [] := pySplit_all_space t hws
  rw [show streamEvents mid t =
      [SSEEvent.start mid, SSEEvent.complete mid, SSEEvent.done] by
    simp [streamEvents, hsplit, chunkTexts, chunkEvents]]

/-- C9 witness: the three-space body `"   "` on `db0`, sent by the owner,
is persisted and streamed as `start`, `complete`, sentinel with zero
chunks. -/
theorem C9_whitespace_only_body_witness :
    stream_message db0 ⟨1, "alice", true⟩ 10
        ⟨none, none, some [' ', ' ', ' '], none⟩ 9 55 =
      StreamResult.stream
        { db0 with
            messages := db0.messages ++ [⟨55, 10, "alice", "user", [' ', ' ', ' '], false, 9⟩],
            conversations := db0.conversations.map
              (fun c => if c.id == 10 then { c with updated_at := 9 } else c) }
        [SSEEvent.start 55, SSEEvent.complete 55, SSEEvent.done] :=
  C9_whitespace_only_body db0 ⟨1, "alice", true⟩ 10
    ⟨none, none, some [' ', ' ', ' '], none⟩ 9 55 [' ', ' ', ' ']
    ⟨10, 1, "1:1", 0, 0, true⟩ rfl rfl (by decide) (by decide)

/-- C10: when `send_message` succeeds, the stored message's `sender` and
`sender_type` are exactly the request-body values (defaulting to the
caller's username and `"user"` when absent); nothing ties them to the
authenticated principal, so any principal with write access can attribute
the message to an arbitrary sender name. -/
theorem C10_sender_attribution (db : DB) (cu : User) (cid : Nat)
    (req : MessageRequest) (now mid : Nat) (ok : Bool)
    (h : (send_message db cu cid req now mid ok).2 = 201) :
    ∃ m ∈ (send_message db cu cid req now mid ok).1.messages,
      m.id = mid ∧ m.sender = req.sender.getD cu.username ∧
      m.sender_type = req.sender_type.getD "user" := by
  rcases send_message_shape db cu cid req now mid ok with ⟨-, hne⟩ |
    ⟨-, -, conv, text, -, -, hdb⟩
  · exact absurd h hne
  · rw [hdb]
    exact ⟨⟨mid, cid, req.sender.getD cu.username, req.sender_type.getD "user",
      text, req.has_audio.getD false, now⟩, by simp, rfl, rfl, rfl⟩

/-- C10 witness: participant `bob` posts to conversation `10` naming the
sender `"mallory"` with type `"caregiver"`; the stored row carries exactly
those values. -/
theorem C10_sender_attribution_witness :
    (send_message db0 ⟨2, "bob", true⟩ 10
        ⟨some "mallory", some "caregiver", some ['h', 'i'], none⟩ 9 55 true).2 = 201 ∧
    ∃ m ∈ (send_message db0 ⟨2, "bob", true⟩ 10
        ⟨some "mallory", some "caregiver", some ['h', 'i'], none⟩ 9 55 true).1.messages,
      m.id = 55 ∧ m.sender = "mallory" ∧ m.sender_type = "caregiver" :=
  ⟨by decide,
    C10_sender_attribution db0 ⟨2, "bob", true⟩ 10
      ⟨some "mallory", some "caregiver", some ['h', 'i'], none⟩ 9 55 true (by decide)⟩

end STTProto


